import Mathlib

/-!
Verification of the GSDK heartbeat engine (`src/cpp/cppsdk/gsdk.cpp`).

We shallowly embed the shared heartbeat state owned by `GSDKInternal`, the
response decoding pipeline `decodeHeartbeatResponse` (including its
exception control flow), the operation dispatcher, `setState`,
`receiveHeartbeatResponse`, `readyForPlayers` and `runShutdownCallback`,
and prove the specified properties about them.

Modelling conventions:
- JSON values produced by the external jsoncpp parser are modelled by the
  inductive `Json`; an object's field list stands for jsoncpp's key-sorted
  member map, iterated in list order.  The outcome of
  `Json::CharReader::parse` (an external library call) is an input of the
  decoder, of type `ParseResult`.
- C++ exceptions thrown while mutating member fields are modelled by the
  result type `DecRes`: `thrown st` carries the state exactly as it stood
  at the throw point, mirroring in-place mutation plus `try`/`catch`.
- Observable effects (calls to `GSDK::logMessage`, invocations of the
  registered callbacks, `Signal()` calls on the events, `std::async`
  launches of the shutdown callback) are counted in the state, so that
  "exactly once" properties are exact counter increments.
-/

/-- The C `std::tm` fields used by `parseDate` / the maintenance cache
(`tm_year` is years since 1900, `tm_mon` is 0-based, as in C).
The zero-initialized value `{}` is the never-notified cache sentinel. -/
structure Tm where
  tm_sec : Nat := 0
  tm_min : Nat := 0
  tm_hour : Nat := 0
  tm_mday : Nat := 0
  tm_mon : Nat := 0
  tm_year : Int := 0
deriving DecidableEq, Repr

/-- Lifecycle states of the server (`GameState` enum; the header defining it
is not under src/, membership is taken from the spec's data model). -/
inductive GameState where
  | Invalid
  | Initializing
  | StandingBy
  | Active
  | Terminating
deriving DecidableEq, Repr

/-- Orchestrator operations recognized by the dispatcher. -/
inductive Operation where
  | Continue
  | Active
  | Terminate
deriving DecidableEq, Repr

/-- Modelled from the spec: `OperationMap` lives in `gsdkInternal.h`, which is
not under src/.  The spec's recognized-name table maps `Continue`, `Active`
and `Terminate` to their operations; any other string is absent from the map,
so `OperationMap.at` raises `std::out_of_range` (modelled as `none`). -/
def operationMap (s : String) : Option Operation :=
  if s = "Continue" then some Operation.Continue
  else if s = "Active" then some Operation.Active
  else if s = "Terminate" then some Operation.Terminate
  else none

/-- jsoncpp JSON values, as seen by `decodeHeartbeatResponse` after parsing.
An `obj` field list models jsoncpp's key-sorted member map. -/
inductive Json where
  | null
  | bool (b : Bool)
  | num (n : Int)
  | str (s : String)
  | arr (elems : List Json)
  | obj (fields : List (String × Json))
deriving Repr

/-- Outcome of the external `Json::CharReader::parse` call on a response
body: `fail` is a parse error (invalid JSON), `ok v` a parsed root value. -/
inductive ParseResult where
  | fail
  | ok (v : Json)

/-- The shared heartbeat state owned by `GSDKInternal`, together with
counters for the observable effects (log lines, callback invocations,
event `Signal()` calls, `std::async` launches). -/
structure HState where
  configSettings : List (String × String)
  initialPlayers : List String
  connectedPlayers : List String
  cachedScheduledMaintenance : Tm
  currentGameState : GameState
  keepHeartbeatRunning : Bool
  transitionToActiveEvent : Bool
  signalHeartbeatEvent : Bool
  heartbeatSignalCount : Nat
  maintenanceCallback : Bool
  maintenanceFireCount : Nat
  shutdownCallback : Bool
  shutdownFireCount : Nat
  shutdownScheduledCount : Nat
  logCount : Nat
deriving DecidableEq, Repr

/-- The state set up by `GSDKInternal::init`: empty config and rosters, the
cache zeroed (`m_cachedScheduledMaintenance = {}`), both events `Reset()`,
the run flag set, no callbacks registered, all effect counters zero. -/
def initState : HState :=
  { configSettings := []
    initialPlayers := []
    connectedPlayers := []
    cachedScheduledMaintenance := {}
    currentGameState := GameState.Initializing
    keepHeartbeatRunning := true
    transitionToActiveEvent := false
    signalHeartbeatEvent := false
    heartbeatSignalCount := 0
    maintenanceCallback := false
    maintenanceFireCount := 0
    shutdownCallback := false
    shutdownFireCount := 0
    shutdownScheduledCount := 0
    logCount := 0 }

/-- `n` calls to `GSDK::logMessage`. -/
def logN (n : Nat) (st : HState) : HState :=
  { st with logCount := st.logCount + n }

/-- Parse two decimal digits. -/
def digits2 : List Char → Option (Nat × List Char)
  | c1 :: c2 :: rest =>
      if c1.isDigit && c2.isDigit then
        some ((c1.toNat - 48) * 10 + (c2.toNat - 48), rest)
      else none
  | _ => none

/-- Parse four decimal digits. -/
def digits4 (cs : List Char) : Option (Nat × List Char) := do
  let (hi, cs1) ← digits2 cs
  let (lo, cs2) ← digits2 cs1
  some (hi * 100 + lo, cs2)

/-- Require a literal character. -/
def expectChar (c : Char) : List Char → Option (List Char)
  | c1 :: rest => if c1 = c then some rest else none
  | [] => none

/-- `std::get_time` with format `%Y-%m-%dT%T` on the character stream:
fields are range-checked, trailing characters (the `Z`) are left unread. -/
def parseDateCore (cs : List Char) : Option Tm := do
  let (y, cs1) ← digits4 cs
  let cs2 ← expectChar '-' cs1
  let (mo, cs3) ← digits2 cs2
  let cs4 ← expectChar '-' cs3
  let (d, cs5) ← digits2 cs4
  let cs6 ← expectChar 'T' cs5
  let (h, cs7) ← digits2 cs6
  let cs8 ← expectChar ':' cs7
  let (mi, cs9) ← digits2 cs8
  let cs10 ← expectChar ':' cs9
  let (se, _) ← digits2 cs10
  if 1 ≤ mo ∧ mo ≤ 12 ∧ 1 ≤ d ∧ d ≤ 31 ∧ h ≤ 23 ∧ mi ≤ 59 ∧ se ≤ 60 then
    some { tm_year := (y : Int) - 1900, tm_mon := mo - 1, tm_mday := d,
           tm_hour := h, tm_min := mi, tm_sec := se }
  else none

/-- `GSDKInternal::parseDate`: ISO-8601 UTC `yyyy-mm-ddThh:mm:ssZ` only; on
failure the zeroed `tm` with `tm_year = 100` (year 2000) is returned. -/
def parseDate (s : String) : Tm :=
  match parseDateCore s.toList with
  | some t => t
  | none => { tm_year := 100 }

/-- Gregorian leap-year test. -/
def isLeap (y : Nat) : Bool :=
  y % 4 == 0 && (y % 100 != 0 || y % 400 == 0)

/-- Days in calendar year `y`. -/
def daysInYear (y : Nat) : Nat := if isLeap y then 366 else 365

/-- Days from 1970-01-01 to the start of year `1970 + n`. -/
def daysSinceEpochToYear : Nat → Nat
  | 0 => 0
  | n + 1 => daysSinceEpochToYear n + daysInYear (1970 + n)

/-- Month lengths of year `y`. -/
def monthLengths (y : Nat) : List Nat :=
  [31, if isLeap y then 29 else 28, 31, 30, 31, 30, 31, 31, 30, 31, 30, 31]

/-- Days before 0-based month `m` in year `y`. -/
def daysBeforeMonth (y m : Nat) : Nat :=
  ((monthLengths y).take m).foldl Nat.add 0

/-- Modelled from the spec: `cGSDKUtils::tm2timet_utc` is not under src/.
It converts a broken-down UTC time to seconds since the epoch
(`_mkgmtime`/`timegm`); per the spec, maintenance timestamps are
second-granularity UTC date-times and the zeroed cache sentinel "means never
notified" — the comment in `decodeHeartbeatResponse` relies on the sentinel
(and any pre-epoch time, which the conversion cannot represent) converting
to `-1`.  Defined here for in-range fields as produced by `parseDate`. -/
def tm2timet_utc (t : Tm) : Int :=
  let y : Int := 1900 + t.tm_year
  if y < 1970 then -1
  else
    let yn := y.toNat
    let days : Int :=
      (daysSinceEpochToYear (yn - 1970) : Int) +
      (daysBeforeMonth yn t.tm_mon : Int) + (t.tm_mday : Int) - 1
    let secs : Int :=
      days * 86400 + (t.tm_hour : Int) * 3600 + (t.tm_min : Int) * 60 + (t.tm_sec : Int)
    if secs < 0 then -1 else secs

/-- `GSDKInternal::setState`: under the state lock, update only if the value
differs and then `Signal()` the heartbeat event (the `Signal()` call is also
counted in `heartbeatSignalCount`). -/
def setState (st : HState) (state : GameState) : HState :=
  if st.currentGameState ≠ state then
    { st with currentGameState := state
              signalHeartbeatEvent := true
              heartbeatSignalCount := st.heartbeatSignalCount + 1 }
  else st

/-- `GSDK::registerMaintenanceCallback` (single slot, last wins). -/
def registerMaintenanceCallback (st : HState) : HState :=
  { st with maintenanceCallback := true }

/-- `GSDKInternal::runShutdownCallback`: invoke the registered shutdown
callback if any, then clear the run flag. -/
def runShutdownCallback (st : HState) : HState :=
  let st1 := if st.shutdownCallback then
               { st with shutdownFireCount := st.shutdownFireCount + 1 }
             else st
  { st1 with keepHeartbeatRunning := false }

/-- Result of a decoding phase: `ok` fell through, `thrown` raised a
`Json::Exception`, keeping the state exactly as mutated so far. -/
inductive DecRes where
  | ok (st : HState)
  | thrown (st : HState)
deriving DecidableEq, Repr

/-- The state carried by a phase result. -/
def DecRes.state : DecRes → HState
  | .ok st => st
  | .thrown st => st

/-- jsoncpp member lookup on an object's (key-sorted, duplicate-free)
field list. -/
def lookupField : List (String × Json) → String → Option Json
  | [], _ => none
  | (k, v) :: rest, key => if k = key then some v else lookupField rest key

/-- The session-config / metadata merge loop: for each member, if the value
`isString()`, overwrite `m_configSettings[key]`; others are skipped. -/
def insertCfg : List (String × String) → String → String → List (String × String)
  | [], k, v => [(k, v)]
  | (k1, v1) :: rest, k, v =>
      if k1 = k then (k, v) :: rest else (k1, v1) :: insertCfg rest k v

/-- Merge the string-valued entries of a decoded JSON object into the
config settings, in iteration order (gsdk.cpp lines 365-371 / 387-394). -/
def mergeStringEntries (m : List (String × String)) (entries : List (String × Json)) :
    List (String × String) :=
  entries.foldl
    (fun acc e =>
      match e.2 with
      | Json.str s => insertCfg acc e.1 s
      | _ => acc)
    m

/-- The `initialPlayers` push loop: `push_back(players[i].asCString())` for
each element; a non-string element throws, keeping the pushes made so far
(`Bool` = threw). -/
def pushPlayers (acc : List String) : List Json → List String × Bool
  | [] => (acc, false)
  | Json.str s :: rest => pushPlayers (acc ++ [s]) rest
  | _ :: _ => (acc, true)

/-- Does the list contain a string element (first string element of an
array iterated as members triggers `key().asCString()`, which throws). -/
def hasStringElem : List Json → Bool
  | [] => false
  | Json.str _ :: _ => true
  | _ :: rest => hasStringElem rest

/-- gsdk.cpp lines 373-382: populate `m_initialPlayers` only when still
empty.  For an array value, push elements until a non-string throws; a
non-empty object value throws at `players[0]` (index access on an object);
scalar values have `size() == 0`, so the loop body never runs. -/
def processInitialPlayers (st : HState) (sc : List (String × Json)) : DecRes :=
  if st.initialPlayers = [] then
    match lookupField sc "initialPlayers" with
    | none => .ok st
    | some (Json.arr es) =>
        match pushPlayers st.initialPlayers es with
        | (ps, false) => .ok { st with initialPlayers := ps }
        | (ps, true) => .thrown { st with initialPlayers := ps }
    | some (Json.obj []) => .ok st
    | some (Json.obj (_ :: _)) => .thrown st
    | some _ => .ok st
  else .ok st

/-- gsdk.cpp lines 384-394: merge string members of `metadata` into the
config.  Iterating an array value throws at its first string element
(integer key); scalars and `null` iterate as empty. -/
def processMetadata (st : HState) (sc : List (String × Json)) : DecRes :=
  match lookupField sc "metadata" with
  | none => .ok st
  | some (Json.obj mf) =>
      .ok { st with configSettings := mergeStringEntries st.configSettings mf }
  | some (Json.arr es) => if hasStringElem es then .thrown st else .ok st
  | some _ => .ok st

/-- gsdk.cpp lines 361-395: the `sessionConfig` block.  A non-object,
non-null root or `sessionConfig` value throws (in `isMember` or at an
integer member key) before any mutation; an object value merges its string
members, then runs the initial-players and metadata sub-blocks. -/
def processSessionConfig (st : HState) (resp : Json) : DecRes :=
  match resp with
  | Json.null => .ok st
  | Json.obj fields =>
      match lookupField fields "sessionConfig" with
      | none => .ok st
      | some Json.null => .ok st
      | some (Json.obj sc) =>
          let st1 := { st with configSettings := mergeStringEntries st.configSettings sc }
          match processInitialPlayers st1 sc with
          | .thrown s => .thrown s
          | .ok s2 => processMetadata s2 sc
      | some _ => .thrown st
  | _ => .thrown st

/-- gsdk.cpp lines 397-411: the maintenance block.  `asCString()` on a
non-string field value throws; otherwise parse the date, compare epoch
seconds with the cached time, and when a callback is registered and the
time differs (or nothing was ever cached, converting to `-1`), invoke the
callback and cache the new time. -/
def processMaintenance (st : HState) (resp : Json) : DecRes :=
  match resp with
  | Json.obj fields =>
      match lookupField fields "nextScheduledMaintenanceUtc" with
      | none => .ok st
      | some (Json.str s) =>
          let nextMaintenance := parseDate s
          let nextMaintenanceTime := tm2timet_utc nextMaintenance
          let cachedMaintenanceTime := tm2timet_utc st.cachedScheduledMaintenance
          let diff := nextMaintenanceTime - cachedMaintenanceTime
          if st.maintenanceCallback = true ∧ (diff ≠ 0 ∨ cachedMaintenanceTime = -1) then
            .ok { st with maintenanceFireCount := st.maintenanceFireCount + 1
                          cachedScheduledMaintenance := nextMaintenance }
          else .ok st
      | some _ => .thrown st
  | _ => .ok st

/-- gsdk.cpp lines 424-446: the operation switch. -/
def dispatchOperation (st : HState) (op : Operation) : HState :=
  match op with
  | Operation.Continue => st
  | Operation.Active =>
      if st.currentGameState ≠ GameState.Active then
        let st1 := setState st GameState.Active
        { st1 with transitionToActiveEvent := true }
      else st
  | Operation.Terminate =>
      if st.currentGameState ≠ GameState.Terminating then
        let st1 := setState st GameState.Terminating
        { st1 with transitionToActiveEvent := true
                   shutdownScheduledCount := st1.shutdownScheduledCount + 1 }
      else st

/-- gsdk.cpp lines 413-452: the `operation` block.  `asCString()` on a
non-string value throws past the inner catch; an unrecognized name raises
`std::out_of_range` from `OperationMap.at`, caught and logged. -/
def processOperation (st : HState) (resp : Json) : DecRes :=
  match resp with
  | Json.obj fields =>
      match lookupField fields "operation" with
      | none => .ok st
      | some (Json.str opStr) =>
          match operationMap opStr with
          | some op => .ok (dispatchOperation st op)
          | none => .ok (logN 1 st)
      | some _ => .thrown st
  | _ => .ok st

/-- The body of the outer `try` of `decodeHeartbeatResponse`: the three
blocks in source order, stopping at the first thrown exception. -/
def processResponse (st : HState) (resp : Json) : DecRes :=
  match processSessionConfig st resp with
  | .thrown s => .thrown s
  | .ok s1 =>
      match processMaintenance s1 resp with
      | .thrown s => .thrown s
      | .ok s2 => processOperation s2 resp

/-- `GSDKInternal::decodeHeartbeatResponse` on the parse outcome of the
response body: parse failure logs three messages and returns; a
`Json::Exception` from the blocks is caught, logging three messages and
keeping the state as mutated up to the throw point. -/
def decodeHeartbeatResponse (st : HState) (body : ParseResult) : HState :=
  match body with
  | ParseResult.fail => logN 3 st
  | ParseResult.ok resp =>
      match processResponse st resp with
      | .ok s => s
      | .thrown s => logN 3 s

/-- `GSDKInternal::receiveHeartbeatResponse`: an HTTP status of 300 or more
logs the body and returns without decoding. -/
def receiveHeartbeatResponse (st : HState) (httpCode : Int) (body : ParseResult) : HState :=
  if httpCode ≥ 300 then logN 1 st
  else decodeHeartbeatResponse st body

/-- The heartbeat loop (`heartbeatThreadFunc`) driven by a list of incoming
exchanges, counting the heartbeat ticks it still issues: each iteration
checks `m_keepHeartbeatRunning`, performs one exchange, and loops. -/
def heartbeatLoop (st : HState) : List (Int × ParseResult) → Nat
  | [] => 0
  | (code, body) :: rest =>
      if st.keepHeartbeatRunning then
        1 + heartbeatLoop (receiveHeartbeatResponse st code body) rest
      else 0

/-- The wait of `readyForPlayers` on `m_transitionToActiveEvent`, modelled
by interleaving: the heartbeat thread decodes the pending responses one by
one and the waiter unblocks as soon as the (manual-reset) event is set,
returning `m_currentGameState == Active` read at that moment.  `none` means
the caller is still blocked when the responses run out. -/
def readyForPlayersAwait (st : HState) : List ParseResult → Option (Bool × HState)
  | [] =>
      if st.transitionToActiveEvent = true then
        some (decide (st.currentGameState = GameState.Active), st)
      else none
  | r :: rest =>
      if st.transitionToActiveEvent = true then
        some (decide (st.currentGameState = GameState.Active), st)
      else readyForPlayersAwait (decodeHeartbeatResponse st r) rest

/-- `GSDK::readyForPlayers`: if not already Active, set StandingBy and block
on the transition-to-active event while responses `rs` are decoded. -/
def readyForPlayers (st : HState) (rs : List ParseResult) : Option (Bool × HState) :=
  if st.currentGameState = GameState.Active then some (true, st)
  else readyForPlayersAwait (setState st GameState.StandingBy) rs

/-- Decode a list of heartbeat response bodies in order. -/
def runResponses (st : HState) (rs : List ParseResult) : HState :=
  rs.foldl decodeHeartbeatResponse st

/-- A response carrying only `nextScheduledMaintenanceUtc`. -/
def maintResp (s : String) : ParseResult :=
  ParseResult.ok (Json.obj [("nextScheduledMaintenanceUtc", Json.str s)])

/-- The response `{"operation":"Terminate"}`. -/
def terminateResp : ParseResult :=
  ParseResult.ok (Json.obj [("operation", Json.str "Terminate")])

/-- A sequence of `setState` calls. -/
def applySetStates (st : HState) (calls : List GameState) : HState :=
  calls.foldl setState st

/-- Number of calls in the sequence whose argument differs from the state
current at that call. -/
def changeCount (cur : GameState) : List GameState → Nat
  | [] => 0
  | s :: rest => (if s = cur then 0 else 1) + changeCount s rest

/-- Lookup in the config settings map (`m_configSettings.find`). -/
def lookupCfg : List (String × String) → String → Option String
  | [], _ => none
  | (k, v) :: rest, key => if k = key then some v else lookupCfg rest key

/-- The last string value a session-config update assigns to `key` (later
entries of the update overwrite earlier ones). -/
def lastStrVal (key : String) : List (String × Json) → Option String
  | [] => none
  | (k, v) :: rest =>
      match lastStrVal key rest with
      | some w => some w
      | none =>
          match v with
          | Json.str s => if k = key then some s else none
          | _ => none

/-- Does the update carry an entry for `key`. -/
def hasKeyE (u : List (String × Json)) (key : String) : Bool :=
  u.any (fun e => e.1 == key)

/-- Disjoint key sets of two updates. -/
def keysDisjoint (u1 u2 : List (String × Json)) : Bool :=
  u1.all (fun e => !(hasKeyE u2 e.1))

/-- A heartbeat response whose `sessionConfig` carries one good string
entry and a non-string element inside `initialPlayers`. -/
def c3resp : Json :=
  Json.obj [("sessionConfig",
    Json.obj [("a", Json.str "b"), ("initialPlayers", Json.arr [Json.num 5])])]

/-- The state at the throw point when decoding `c3resp` from `initState`:
the config entry is already merged. -/
def c3thrownState : HState := { initState with configSettings := [("a", "b")] }

/-- Initial state with a registered maintenance callback. -/
def stMaint : HState := { initState with maintenanceCallback := true }

/-- An Active state with a registered shutdown callback. -/
def stActiveShutdown : HState :=
  { initState with currentGameState := GameState.Active, shutdownCallback := true }

/-- A StandingBy state. -/
def stStandingBy : HState := { initState with currentGameState := GameState.StandingBy }

/-- The response carrying the `Active` operation. -/
def activeResp : ParseResult :=
  ParseResult.ok (Json.obj [("operation", Json.str "Active")])


/-! ### Frame lemmas for the decoding phases -/

/-- `pushPlayers` on a list of string elements appends them all and does
not throw. -/
theorem pushPlayers_strings (L : List String) : ∀ acc,
    pushPlayers acc (L.map Json.str) = (acc ++ L, false) := by
  induction L with
  | nil => intro acc; simp [pushPlayers]
  | cons s L ih =>
      intro acc
      simp only [List.map_cons, pushPlayers, ih (acc ++ [s]), List.append_assoc,
        List.singleton_append]

/-- The initial-players block touches only `initialPlayers`. -/
theorem processInitialPlayers_frame (st : HState) (sc : List (String × Json)) :
    ∃ ps, (processInitialPlayers st sc).state = { st with initialPlayers := ps } := by
  unfold processInitialPlayers
  split
  · split
    · exact ⟨st.initialPlayers, rfl⟩
    · split
      · exact ⟨_, rfl⟩
      · exact ⟨_, rfl⟩
    · exact ⟨st.initialPlayers, rfl⟩
    · exact ⟨st.initialPlayers, rfl⟩
    · exact ⟨st.initialPlayers, rfl⟩
  · exact ⟨st.initialPlayers, rfl⟩

/-- The metadata block touches only `configSettings`. -/
theorem processMetadata_frame (st : HState) (sc : List (String × Json)) :
    ∃ cfg, (processMetadata st sc).state = { st with configSettings := cfg } := by
  unfold processMetadata
  split
  · exact ⟨st.configSettings, rfl⟩
  · exact ⟨_, rfl⟩
  · split
    · exact ⟨st.configSettings, rfl⟩
    · exact ⟨st.configSettings, rfl⟩
  · exact ⟨st.configSettings, rfl⟩

/-- The whole `sessionConfig` block touches only `configSettings` and
`initialPlayers`, whether it falls through or throws. -/
theorem processSessionConfig_frame (st : HState) (r : Json) :
    ∃ cfg ps, (processSessionConfig st r).state =
      { st with configSettings := cfg, initialPlayers := ps } := by
  unfold processSessionConfig
  split
  · exact ⟨st.configSettings, st.initialPlayers, rfl⟩
  · split
    · exact ⟨st.configSettings, st.initialPlayers, rfl⟩
    · exact ⟨st.configSettings, st.initialPlayers, rfl⟩
    · rename_i fields sc hs
      dsimp only
      split
      · rename_i s hip
        obtain ⟨ps, hps⟩ := processInitialPlayers_frame
          { st with configSettings := mergeStringEntries st.configSettings sc } sc
        rw [hip] at hps
        exact ⟨mergeStringEntries st.configSettings sc, ps, hps⟩
      · rename_i s2 hip
        obtain ⟨ps, hps⟩ := processInitialPlayers_frame
          { st with configSettings := mergeStringEntries st.configSettings sc } sc
        rw [hip] at hps
        obtain ⟨cfg2, hm⟩ := processMetadata_frame s2 sc
        refine ⟨cfg2, ps, ?_⟩
        rw [hm, show (s2 : HState) = _ from hps]
    · exact ⟨st.configSettings, st.initialPlayers, rfl⟩
  · exact ⟨st.configSettings, st.initialPlayers, rfl⟩

/-- The maintenance block touches only the cache and the fire counter. -/
theorem processMaintenance_frame (st : HState) (r : Json) :
    ∃ c n, (processMaintenance st r).state =
      { st with cachedScheduledMaintenance := c, maintenanceFireCount := n } := by
  unfold processMaintenance
  split
  · split
    · exact ⟨st.cachedScheduledMaintenance, st.maintenanceFireCount, rfl⟩
    · dsimp only
      split
      · exact ⟨_, _, rfl⟩
      · exact ⟨st.cachedScheduledMaintenance, st.maintenanceFireCount, rfl⟩
    · exact ⟨st.cachedScheduledMaintenance, st.maintenanceFireCount, rfl⟩
  · exact ⟨st.cachedScheduledMaintenance, st.maintenanceFireCount, rfl⟩

/-- A throw in the maintenance block happens before any of its mutations. -/
theorem processMaintenance_thrown (st : HState) (r : Json) (s : HState)
    (h : processMaintenance st r = DecRes.thrown s) : s = st := by
  unfold processMaintenance at h
  split at h
  · split at h
    · cases h
    · dsimp only at h
      split at h
      · cases h
      · cases h
    · cases h; rfl
  · cases h

/-- A throw in the operation block happens before any of its mutations. -/
theorem processOperation_thrown (st : HState) (r : Json) (s : HState)
    (h : processOperation st r = DecRes.thrown s) : s = st := by
  unfold processOperation at h
  split at h
  · split at h
    · cases h
    · split at h
      · cases h
      · cases h
    · cases h; rfl
  · cases h

/-- The operation block either leaves the state alone, only logs an
unknown-operation line, or dispatches a recognized operation. -/
theorem processOperation_cases (st : HState) (r : Json) :
    (processOperation st r).state = st ∨
    (processOperation st r).state = logN 1 st ∨
    ∃ op, (processOperation st r).state = dispatchOperation st op := by
  unfold processOperation
  split
  · split
    · exact Or.inl rfl
    · split
      · exact Or.inr (Or.inr ⟨_, rfl⟩)
      · exact Or.inr (Or.inl rfl)
    · exact Or.inl rfl
  · exact Or.inl rfl

/-- The operation dispatcher never touches the config, the rosters, the
maintenance cache or the maintenance counter. -/
theorem dispatchOperation_frame (st : HState) (op : Operation) :
    (dispatchOperation st op).configSettings = st.configSettings ∧
    (dispatchOperation st op).initialPlayers = st.initialPlayers ∧
    (dispatchOperation st op).connectedPlayers = st.connectedPlayers ∧
    (dispatchOperation st op).cachedScheduledMaintenance = st.cachedScheduledMaintenance ∧
    (dispatchOperation st op).maintenanceFireCount = st.maintenanceFireCount ∧
    (dispatchOperation st op).maintenanceCallback = st.maintenanceCallback ∧
    (dispatchOperation st op).logCount = st.logCount := by
  cases op <;> simp [dispatchOperation, setState] <;> split <;> simp [setState]

/-- The maintenance block never touches `initialPlayers`. -/
theorem processMaintenance_players (st : HState) (r : Json) :
    (processMaintenance st r).state.initialPlayers = st.initialPlayers := by
  obtain ⟨c, n, h⟩ := processMaintenance_frame st r
  rw [h]

/-- The operation block never touches `initialPlayers`. -/
theorem processOperation_players (st : HState) (r : Json) :
    (processOperation st r).state.initialPlayers = st.initialPlayers := by
  rcases processOperation_cases st r with h | h | ⟨op, h⟩
  · rw [h]
  · rw [h]; rfl
  · rw [h]; exact (dispatchOperation_frame st op).2.1

/-- Only the `sessionConfig` block can change `initialPlayers`. -/
theorem processResponse_players (st : HState) (r : Json) :
    (processResponse st r).state.initialPlayers =
      (processSessionConfig st r).state.initialPlayers := by
  unfold processResponse
  split
  · rename_i s h; rw [h]
  · rename_i s1 h1
    rw [h1]
    split
    · rename_i s h2
      rw [processMaintenance_thrown s1 r s h2]
      rfl
    · rename_i s2 h2
      rw [processOperation_players s2 r]
      have hp := processMaintenance_players s1 r
      rw [h2] at hp
      exact hp

/-- With a non-empty stored list the initial-players block is skipped. -/
theorem processInitialPlayers_nonempty (st : HState) (sc : List (String × Json))
    (h : st.initialPlayers ≠ []) :
    processInitialPlayers st sc = DecRes.ok st := by
  unfold processInitialPlayers
  rw [if_neg h]

/-- With a non-empty stored list the whole `sessionConfig` block leaves
`initialPlayers` unchanged. -/
theorem processSessionConfig_players_nonempty (st : HState) (r : Json)
    (h : st.initialPlayers ≠ []) :
    (processSessionConfig st r).state.initialPlayers = st.initialPlayers := by
  unfold processSessionConfig
  split
  · rfl
  · split
    · rfl
    · rfl
    · rename_i fields sc hs
      dsimp only
      have h1 : ({ st with configSettings := mergeStringEntries st.configSettings sc } :
          HState).initialPlayers ≠ [] := h
      simp only [processInitialPlayers_nonempty _ sc h1]
      obtain ⟨cfg2, hm⟩ := processMetadata_frame
        { st with configSettings := mergeStringEntries st.configSettings sc } sc
      rw [hm]
    · rfl
  · rfl

/-- Decoding with a successful pipeline. -/
theorem decode_of_ok (st s : HState) (r : Json)
    (h : processResponse st r = DecRes.ok s) :
    decodeHeartbeatResponse st (ParseResult.ok r) = s := by
  unfold decodeHeartbeatResponse
  dsimp only
  rw [h]

/-- Decoding with a thrown pipeline: the caught state plus three log lines. -/
theorem decode_of_thrown (st s : HState) (r : Json)
    (h : processResponse st r = DecRes.thrown s) :
    decodeHeartbeatResponse st (ParseResult.ok r) = logN 3 s := by
  unfold decodeHeartbeatResponse
  dsimp only
  rw [h]

/-- A dispatch that sets the transition-to-active event also sets the game
state to `Active` or `Terminating`. -/
theorem dispatch_event_state (st : HState) (op : Operation)
    (h1 : st.transitionToActiveEvent = false)
    (h2 : (dispatchOperation st op).transitionToActiveEvent = true) :
    (dispatchOperation st op).currentGameState = GameState.Active ∨
    (dispatchOperation st op).currentGameState = GameState.Terminating := by
  cases op with
  | Continue =>
      unfold dispatchOperation at h2
      rw [h1] at h2
      simp at h2
  | Active =>
      unfold dispatchOperation at h2 ⊢
      by_cases hc : st.currentGameState ≠ GameState.Active
      · rw [if_pos hc] at h2 ⊢
        left
        simp [setState, hc]
      · rw [if_neg hc] at h2
        rw [h1] at h2
        simp at h2
  | Terminate =>
      unfold dispatchOperation at h2 ⊢
      by_cases hc : st.currentGameState ≠ GameState.Terminating
      · rw [if_pos hc] at h2 ⊢
        right
        simp [setState, hc]
      · rw [if_neg hc] at h2
        rw [h1] at h2
        simp at h2

/-- Response processing raises the transition-to-active event only through
a dispatched operation that leaves the state `Active` or `Terminating`. -/
theorem processResponse_event_state (st : HState) (r : Json)
    (h1 : st.transitionToActiveEvent = false)
    (h2 : (processResponse st r).state.transitionToActiveEvent = true) :
    (processResponse st r).state.currentGameState = GameState.Active ∨
    (processResponse st r).state.currentGameState = GameState.Terminating := by
  obtain ⟨cfg, ps, hA⟩ := processSessionConfig_frame st r
  unfold processResponse at h2 ⊢
  rcases hA2 : processSessionConfig st r with s1 | s1
  · rw [hA2] at hA h2
    dsimp only [DecRes.state] at hA
    dsimp only at h2 ⊢
    rcases hB : processMaintenance s1 r with s2 | s2
    · rw [hB] at h2
      dsimp only at h2 ⊢
      obtain ⟨c, n, hMf⟩ := processMaintenance_frame s1 r
      rw [hB] at hMf
      dsimp only [DecRes.state] at hMf
      rcases processOperation_cases s2 r with hO | hO | ⟨op, hO⟩
      · rw [hO] at h2
        simp [hMf, hA, h1] at h2
      · rw [hO] at h2
        simp [logN, hMf, hA, h1] at h2
      · rw [hO] at h2 ⊢
        have hev2 : s2.transitionToActiveEvent = false := by
          rw [hMf]
          dsimp only
          rw [hA]
          dsimp only
          exact h1
        exact dispatch_event_state s2 op hev2 h2
    · rw [hB] at h2
      dsimp only [DecRes.state] at h2 ⊢
      rw [processMaintenance_thrown s1 r s2 hB] at h2 ⊢
      simp [hA, h1] at h2
  · rw [hA2] at hA h2
    dsimp only [DecRes.state] at hA
    dsimp only [DecRes.state] at h2 ⊢
    simp [hA, h1] at h2

/-- Decoding raises the transition-to-active event only together with a
game state of `Active` or `Terminating`. -/
theorem decode_event_sets_state (st : HState) (body : ParseResult)
    (h1 : st.transitionToActiveEvent = false)
    (h2 : (decodeHeartbeatResponse st body).transitionToActiveEvent = true) :
    (decodeHeartbeatResponse st body).currentGameState = GameState.Active ∨
    (decodeHeartbeatResponse st body).currentGameState = GameState.Terminating := by
  cases body with
  | fail =>
      rw [show decodeHeartbeatResponse st ParseResult.fail = logN 3 st from rfl] at h2
      rw [show (logN 3 st).transitionToActiveEvent = st.transitionToActiveEvent from rfl] at h2
      rw [h1] at h2
      simp at h2
  | ok r =>
      rcases hR : processResponse st r with s | s
      · rw [decode_of_ok st s r hR] at h2 ⊢
        have h2s : (processResponse st r).state.transitionToActiveEvent = true := by
          rw [hR]; exact h2
        have hres := processResponse_event_state st r h1 h2s
        rw [hR] at hres
        exact hres
      · rw [decode_of_thrown st s r hR] at h2 ⊢
        have h2s : (processResponse st r).state.transitionToActiveEvent = true := by
          rw [hR]; exact h2
        have hres := processResponse_event_state st r h1 h2s
        rw [hR] at hres
        exact hres

/-- With the event already signaled, the wait returns immediately with the
game state read at that moment. -/
theorem readyForPlayersAwait_pending (st : HState) (rs : List ParseResult)
    (h : st.transitionToActiveEvent = true) :
    readyForPlayersAwait st rs =
      some (decide (st.currentGameState = GameState.Active), st) := by
  cases rs <;> simp [readyForPlayersAwait, h]

/-- If the wait unblocks, the event was signaled, the returned flag reads
the game state at unblock time, and that state is `Active` or
`Terminating`. -/
theorem readyForPlayersAwait_sound (rs : List ParseResult) : ∀ (st : HState) (b : Bool)
    (st2 : HState),
    st.transitionToActiveEvent = false →
    readyForPlayersAwait st rs = some (b, st2) →
    st2.transitionToActiveEvent = true ∧
    (b = true ↔ st2.currentGameState = GameState.Active) ∧
    (st2.currentGameState = GameState.Active ∨
     st2.currentGameState = GameState.Terminating) := by
  induction rs with
  | nil =>
      intro st b st2 h1 h2
      simp [readyForPlayersAwait, h1] at h2
  | cons r rest ih =>
      intro st b st2 h1 h2
      rw [show readyForPlayersAwait st (r :: rest) =
            if st.transitionToActiveEvent = true then
              some (decide (st.currentGameState = GameState.Active), st)
            else readyForPlayersAwait (decodeHeartbeatResponse st r) rest from rfl] at h2
      rw [if_neg (by simp [h1])] at h2
      by_cases hev : (decodeHeartbeatResponse st r).transitionToActiveEvent = true
      · rw [readyForPlayersAwait_pending _ rest hev] at h2
        have h3 := Option.some.inj h2
        rw [Prod.mk.injEq] at h3
        obtain ⟨hb, hst⟩ := h3
        subst hst
        subst hb
        refine ⟨hev, by simp, ?_⟩
        exact decode_event_sets_state st r h1 hev
      · simp only [Bool.not_eq_true] at hev
        exact ih _ b st2 hev h2

/-- Decoding a response carrying only `nextScheduledMaintenanceUtc`. -/
theorem decode_maintResp (st : HState) (T : String) :
    decodeHeartbeatResponse st (maintResp T) =
      if st.maintenanceCallback = true ∧
          (tm2timet_utc (parseDate T) - tm2timet_utc st.cachedScheduledMaintenance ≠ 0 ∨
           tm2timet_utc st.cachedScheduledMaintenance = -1) then
        { st with maintenanceFireCount := st.maintenanceFireCount + 1
                  cachedScheduledMaintenance := parseDate T }
      else st := by
  by_cases hc : st.maintenanceCallback = true ∧
      (tm2timet_utc (parseDate T) - tm2timet_utc st.cachedScheduledMaintenance ≠ 0 ∨
       tm2timet_utc st.cachedScheduledMaintenance = -1)
  · rw [if_pos hc]
    unfold decodeHeartbeatResponse maintResp processResponse processSessionConfig
      processMaintenance processOperation
    simp only [lookupField, String.reduceEq, reduceIte]
    rw [if_pos hc]
  · rw [if_neg hc]
    unfold decodeHeartbeatResponse maintResp processResponse processSessionConfig
      processMaintenance processOperation
    simp only [lookupField, String.reduceEq, reduceIte]
    rw [if_neg hc]

/-- Maintenance update when the callback is registered and the guard holds. -/
theorem decode_maint_fires (st : HState) (T : String)
    (hcb : st.maintenanceCallback = true)
    (hcond : tm2timet_utc (parseDate T) - tm2timet_utc st.cachedScheduledMaintenance ≠ 0 ∨
             tm2timet_utc st.cachedScheduledMaintenance = -1) :
    decodeHeartbeatResponse st (maintResp T) =
      { st with maintenanceFireCount := st.maintenanceFireCount + 1
                cachedScheduledMaintenance := parseDate T } := by
  rw [decode_maintResp, if_pos ⟨hcb, hcond⟩]

/-- No maintenance update when the guard fails. -/
theorem decode_maint_skips (st : HState) (T : String)
    (hcond : ¬(st.maintenanceCallback = true ∧
        (tm2timet_utc (parseDate T) - tm2timet_utc st.cachedScheduledMaintenance ≠ 0 ∨
         tm2timet_utc st.cachedScheduledMaintenance = -1))) :
    decodeHeartbeatResponse st (maintResp T) = st := by
  rw [decode_maintResp, if_neg hcond]

theorem runResponses_cons (st : HState) (r : ParseResult) (rs : List ParseResult) :
    runResponses st (r :: rs) = runResponses (decodeHeartbeatResponse st r) rs := rfl

theorem runResponses_append (st : HState) (l1 l2 : List ParseResult) :
    runResponses st (l1 ++ l2) = runResponses (runResponses st l1) l2 := by
  simp [runResponses, List.foldl_append]

/-- Once the cache holds the delivered timestamp (with a representable
epoch value), repeated deliveries never re-fire. -/
theorem runResponses_maint_stable (T : String)
    (hT : tm2timet_utc (parseDate T) ≠ -1) (N : Nat) : ∀ st : HState,
    st.cachedScheduledMaintenance = parseDate T →
    runResponses st (List.replicate N (maintResp T)) = st := by
  induction N with
  | zero => intro st _; rfl
  | succ n ih =>
      intro st hc
      have hskip : decodeHeartbeatResponse st (maintResp T) = st := by
        apply decode_maint_skips
        rintro ⟨hcb, hd | hd⟩
        · rw [hc] at hd
          simp at hd
        · rw [hc] at hd
          exact hT hd
      rw [List.replicate_succ, runResponses_cons, hskip]
      exact ih st hc

/-! ### Config-merge lemmas -/

theorem lookupCfg_insert (m : List (String × String)) (k v key : String) :
    lookupCfg (insertCfg m k v) key = if k = key then some v else lookupCfg m key := by
  induction m with
  | nil => simp [insertCfg, lookupCfg]
  | cons e rest ih =>
      obtain ⟨k1, v1⟩ := e
      by_cases h1 : k1 = k
      · subst h1
        simp only [insertCfg, if_pos rfl, lookupCfg]
        by_cases hk : k1 = key
        · simp [hk]
        · simp [hk]
      · simp only [insertCfg, if_neg h1, lookupCfg, ih]
        by_cases h2 : k1 = key
        · subst h2
          have hk : ¬ k = k1 := fun he => h1 he.symm
          simp [hk]
        · simp [h2]

theorem mergeStringEntries_cons (m : List (String × String)) (k : String) (v : Json)
    (rest : List (String × Json)) :
    mergeStringEntries m ((k, v) :: rest) =
      mergeStringEntries (match v with
        | Json.str s => insertCfg m k s
        | _ => m) rest := rfl

theorem lastStrVal_cons (key k : String) (v : Json) (rest : List (String × Json)) :
    lastStrVal key ((k, v) :: rest) =
      match lastStrVal key rest with
      | some w => some w
      | none =>
          match v with
          | Json.str s => if k = key then some s else none
          | _ => none := rfl

theorem lookupCfg_merge_of_none (key : String) (u : List (String × Json)) :
    ∀ m, lastStrVal key u = none →
      lookupCfg (mergeStringEntries m u) key = lookupCfg m key := by
  induction u with
  | nil => intro m _; rfl
  | cons e rest ih =>
      intro m h
      obtain ⟨k, v⟩ := e
      rw [lastStrVal_cons] at h
      rcases h2 : lastStrVal key rest with _ | w2
      · rw [h2] at h
        dsimp only at h
        rw [mergeStringEntries_cons]
        cases v with
        | str s =>
            dsimp only at h ⊢
            rw [ih _ h2, lookupCfg_insert]
            by_cases hk : k = key
            · rw [if_pos hk] at h
              cases h
            · rw [if_neg hk]
        | null => exact ih _ h2
        | bool b => exact ih _ h2
        | num n => exact ih _ h2
        | arr es => exact ih _ h2
        | obj fs => exact ih _ h2
      · rw [h2] at h
        cases h

theorem lookupCfg_merge_of_some (key : String) (u : List (String × Json)) :
    ∀ m w, lastStrVal key u = some w →
      lookupCfg (mergeStringEntries m u) key = some w := by
  induction u with
  | nil => intro m w h; cases h
  | cons e rest ih =>
      intro m w h
      obtain ⟨k, v⟩ := e
      rw [lastStrVal_cons] at h
      rcases h2 : lastStrVal key rest with _ | w2
      · rw [h2] at h
        dsimp only at h
        rw [mergeStringEntries_cons]
        cases v with
        | str s =>
            dsimp only at h ⊢
            by_cases hk : k = key
            · rw [if_pos hk] at h
              have hs : s = w := Option.some.inj h
              subst hs
              rw [lookupCfg_merge_of_none key rest _ h2, lookupCfg_insert, if_pos hk]
            · rw [if_neg hk] at h
              cases h
        | null => cases h
        | bool b => cases h
        | num n => cases h
        | arr es => cases h
        | obj fs => cases h
      · rw [h2] at h
        have hw : w2 = w := Option.some.inj h
        subst hw
        rw [mergeStringEntries_cons]
        exact ih _ w2 h2

theorem lastStrVal_hasKey (key : String) (u : List (String × Json)) :
    ∀ w, lastStrVal key u = some w → hasKeyE u key = true := by
  induction u with
  | nil => intro w h; cases h
  | cons e rest ih =>
      intro w h
      obtain ⟨k, v⟩ := e
      rw [lastStrVal_cons] at h
      rcases h2 : lastStrVal key rest with _ | w2
      · rw [h2] at h
        dsimp only at h
        simp only [hasKeyE, List.any_cons]
        cases v with
        | str s =>
            dsimp only at h
            by_cases hk : k = key
            · simp [hk]
            · rw [if_neg hk] at h
              cases h
        | null => cases h
        | bool b => cases h
        | num n => cases h
        | arr es => cases h
        | obj fs => cases h
      · rw [h2] at h
        simp only [hasKeyE, List.any_cons]
        have hr := ih w2 h2
        simp only [hasKeyE] at hr
        simp [hr]

theorem keysDisjoint_not_both (u1 u2 : List (String × Json)) (key : String)
    (hd : keysDisjoint u1 u2 = true) (h1 : hasKeyE u1 key = true) :
    hasKeyE u2 key = false := by
  simp only [keysDisjoint, List.all_eq_true] at hd
  simp only [hasKeyE, List.any_eq_true] at h1
  obtain ⟨e, he, hk⟩ := h1
  have hke : e.1 = key := eq_of_beq hk
  have hde := hd e he
  rw [hke] at hde
  simpa using hde

/-! ### setState and thrown-frame helpers -/

theorem setState_cur (st : HState) (c : GameState) :
    (setState st c).currentGameState = c := by
  unfold setState
  split
  · rfl
  · rename_i h
    push_neg at h
    exact h

theorem setState_count (st : HState) (c : GameState) :
    (setState st c).heartbeatSignalCount =
      st.heartbeatSignalCount + (if c = st.currentGameState then 0 else 1) := by
  unfold setState
  split
  · rename_i h
    rw [if_neg (fun he => h he.symm)]
  · rename_i h
    push_neg at h
    rw [if_pos h.symm]
    exact (Nat.add_zero _).symm

/-- On every exception path, the lifecycle state, the events, the signal
counters and the shutdown bookkeeping are untouched (all throw points
precede the operation dispatch). -/
theorem processResponse_thrown_frame (st st2 : HState) (r : Json)
    (h : processResponse st r = DecRes.thrown st2) :
    st2.currentGameState = st.currentGameState ∧
    st2.transitionToActiveEvent = st.transitionToActiveEvent ∧
    st2.keepHeartbeatRunning = st.keepHeartbeatRunning ∧
    st2.signalHeartbeatEvent = st.signalHeartbeatEvent ∧
    st2.heartbeatSignalCount = st.heartbeatSignalCount ∧
    st2.shutdownFireCount = st.shutdownFireCount ∧
    st2.shutdownScheduledCount = st.shutdownScheduledCount ∧
    st2.connectedPlayers = st.connectedPlayers ∧
    st2.logCount = st.logCount := by
  obtain ⟨cfg, ps, hA⟩ := processSessionConfig_frame st r
  unfold processResponse at h
  rcases hA2 : processSessionConfig st r with s1 | s1
  · rw [hA2] at h hA
    dsimp only [DecRes.state] at hA
    dsimp only at h
    rcases hB2 : processMaintenance s1 r with s2 | s2
    · rw [hB2] at h
      dsimp only at h
      obtain ⟨c, n, hMf⟩ := processMaintenance_frame s1 r
      rw [hB2] at hMf
      dsimp only [DecRes.state] at hMf
      have hst2 : st2 = s2 := processOperation_thrown s2 r st2 h
      rw [hst2, hMf, hA]
      simp
    · rw [hB2] at h
      injection h with h3
      rw [← h3, processMaintenance_thrown s1 r s2 hB2, hA]
      simp
  · rw [hA2] at h hA
    dsimp only [DecRes.state] at hA
    dsimp only at h
    cases h
    rw [hA]
    simp

/-- With empty stored players, a response whose `sessionConfig` carries an
`initialPlayers` string array stores exactly that list of players. -/
theorem processSessionConfig_populates (st : HState) (rf sc : List (String × Json))
    (L : List String)
    (hrf : lookupField rf "sessionConfig" = some (Json.obj sc))
    (hip : lookupField sc "initialPlayers" = some (Json.arr (L.map Json.str)))
    (hempty : st.initialPlayers = []) :
    (processSessionConfig st (Json.obj rf)).state.initialPlayers = L := by
  unfold processSessionConfig
  dsimp only
  rw [hrf]
  dsimp only
  have hB : processInitialPlayers
      { st with configSettings := mergeStringEntries st.configSettings sc } sc =
      DecRes.ok { st with configSettings := mergeStringEntries st.configSettings sc,
                          initialPlayers := st.initialPlayers ++ L } := by
    unfold processInitialPlayers
    rw [if_pos hempty]
    rw [hip]
    dsimp only
    rw [pushPlayers_strings L]
  rw [hB]
  dsimp only
  obtain ⟨cfg2, hm⟩ := processMetadata_frame
    { st with configSettings := mergeStringEntries st.configSettings sc,
              initialPlayers := st.initialPlayers ++ L } sc
  rw [hm]
  simp [hempty]

/-! ### Claim theorems -/

/-- C6: for every non-empty sequence of `setState` calls, the observable
current game state afterwards equals the last value set, and the
early-heartbeat signal is raised exactly once per call that actually
changes the value and never for a call whose argument equals the current
state (the signal count grows by exactly the number of changing calls). -/
theorem setState_spec (st : HState) (calls : List GameState) (h : calls ≠ []) :
    (applySetStates st calls).currentGameState = calls.getLast h ∧
    (applySetStates st calls).heartbeatSignalCount =
      st.heartbeatSignalCount + changeCount st.currentGameState calls := by
  induction calls generalizing st with
  | nil => exact absurd rfl h
  | cons c rest ih =>
      cases rest with
      | nil =>
          constructor
          · exact setState_cur st c
          · rw [show applySetStates st [c] = setState st c from rfl, setState_count]
            rw [show changeCount st.currentGameState [c] =
                  (if c = st.currentGameState then 0 else 1) + 0 from rfl]
            rw [Nat.add_zero]
      | cons c2 rest2 =>
          have hne : (c2 :: rest2 : List GameState) ≠ [] := by simp
          obtain ⟨ih1, ih2⟩ := ih (setState st c) hne
          constructor
          · rw [show applySetStates st (c :: c2 :: rest2) =
                  applySetStates (setState st c) (c2 :: rest2) from rfl, ih1]
            exact (List.getLast_cons hne).symm
          · rw [show applySetStates st (c :: c2 :: rest2) =
                  applySetStates (setState st c) (c2 :: rest2) from rfl, ih2]
            rw [setState_count, setState_cur]
            rw [show changeCount st.currentGameState (c :: c2 :: rest2) =
                  (if c = st.currentGameState then 0 else 1) +
                    changeCount c (c2 :: rest2) from rfl]
            rw [Nat.add_assoc]

/-- C6 witness. -/
theorem setState_spec_witness :
    ([GameState.StandingBy, GameState.StandingBy, GameState.Active] :
        List GameState) ≠ [] ∧
    (applySetStates initState
        [GameState.StandingBy, GameState.StandingBy, GameState.Active]).currentGameState =
      GameState.Active ∧
    (applySetStates initState
        [GameState.StandingBy, GameState.StandingBy, GameState.Active]).heartbeatSignalCount =
      initState.heartbeatSignalCount +
        changeCount initState.currentGameState
          [GameState.StandingBy, GameState.StandingBy, GameState.Active] :=
  ⟨by decide, by
    have h := setState_spec initState
      [GameState.StandingBy, GameState.StandingBy, GameState.Active] (by decide)
    exact ⟨h.1, h.2⟩⟩

/-- C7: a response body that fails JSON parsing is discarded after logging:
no config entry merged, no players stored, no callback invoked, the game
state and all of Shared Heartbeat State unchanged; only three error lines
are logged. -/
theorem invalid_json_discard (st : HState) :
    (decodeHeartbeatResponse st ParseResult.fail).configSettings = st.configSettings ∧
    (decodeHeartbeatResponse st ParseResult.fail).initialPlayers = st.initialPlayers ∧
    (decodeHeartbeatResponse st ParseResult.fail).connectedPlayers = st.connectedPlayers ∧
    (decodeHeartbeatResponse st ParseResult.fail).cachedScheduledMaintenance =
      st.cachedScheduledMaintenance ∧
    (decodeHeartbeatResponse st ParseResult.fail).currentGameState = st.currentGameState ∧
    (decodeHeartbeatResponse st ParseResult.fail).maintenanceFireCount =
      st.maintenanceFireCount ∧
    (decodeHeartbeatResponse st ParseResult.fail).shutdownFireCount =
      st.shutdownFireCount ∧
    (decodeHeartbeatResponse st ParseResult.fail).shutdownScheduledCount =
      st.shutdownScheduledCount ∧
    (decodeHeartbeatResponse st ParseResult.fail).heartbeatSignalCount =
      st.heartbeatSignalCount ∧
    (decodeHeartbeatResponse st ParseResult.fail).transitionToActiveEvent =
      st.transitionToActiveEvent ∧
    (decodeHeartbeatResponse st ParseResult.fail).logCount = st.logCount + 3 :=
  ⟨rfl, rfl, rfl, rfl, rfl, rfl, rfl, rfl, rfl, rfl, rfl⟩

/-- C8: an exchange with HTTP status 300 or more is treated as failed: the
body is logged (one line) and never decoded, so Shared Heartbeat State is
unchanged whatever the body contains. -/
theorem http_error_discard (st : HState) (code : Int) (body : ParseResult)
    (h : code ≥ 300) :
    receiveHeartbeatResponse st code body = logN 1 st ∧
    (receiveHeartbeatResponse st code body).configSettings = st.configSettings ∧
    (receiveHeartbeatResponse st code body).currentGameState = st.currentGameState ∧
    (receiveHeartbeatResponse st code body).initialPlayers = st.initialPlayers ∧
    (receiveHeartbeatResponse st code body).connectedPlayers = st.connectedPlayers ∧
    (receiveHeartbeatResponse st code body).cachedScheduledMaintenance =
      st.cachedScheduledMaintenance ∧
    (receiveHeartbeatResponse st code body).maintenanceFireCount =
      st.maintenanceFireCount ∧
    (receiveHeartbeatResponse st code body).logCount = st.logCount + 1 := by
  have he : receiveHeartbeatResponse st code body = logN 1 st := by
    unfold receiveHeartbeatResponse
    rw [if_pos h]
  refine ⟨he, ?_, ?_, ?_, ?_, ?_, ?_, ?_⟩ <;> rw [he] <;> rfl

/-- C8 witness at status code 503 with a decodable body. -/
theorem http_error_discard_witness :
    (503 : Int) ≥ 300 ∧
    receiveHeartbeatResponse initState 503 (ParseResult.ok c3resp) = logN 1 initState :=
  ⟨by decide, (http_error_discard initState 503 (ParseResult.ok c3resp) (by decide)).1⟩

/-- C10: with no maintenance callback registered, a response carrying
`nextScheduledMaintenanceUtc` neither updates the cached maintenance time
nor fires anything; consequently, registering a callback afterwards makes
the next response carrying the same timestamp fire (when nothing has ever
been cached). -/
theorem maintenance_no_callback_frame (st : HState) (s : String)
    (h1 : st.maintenanceCallback = false) :
    (decodeHeartbeatResponse st (maintResp s)).cachedScheduledMaintenance =
      st.cachedScheduledMaintenance ∧
    (decodeHeartbeatResponse st (maintResp s)).maintenanceFireCount =
      st.maintenanceFireCount ∧
    (st.cachedScheduledMaintenance = {} →
      (decodeHeartbeatResponse
          (registerMaintenanceCallback (decodeHeartbeatResponse st (maintResp s)))
          (maintResp s)).maintenanceFireCount = st.maintenanceFireCount + 1) := by
  have hskip : decodeHeartbeatResponse st (maintResp s) = st := by
    apply decode_maint_skips
    rintro ⟨hcb, _⟩
    rw [h1] at hcb
    cases hcb
  refine ⟨by rw [hskip], by rw [hskip], ?_⟩
  intro hc
  rw [hskip]
  have hfire := decode_maint_fires (registerMaintenanceCallback st) s rfl
    (Or.inr (by
      rw [show (registerMaintenanceCallback st).cachedScheduledMaintenance =
            st.cachedScheduledMaintenance from rfl, hc]
      decide))
  rw [hfire]
  rfl

/-- C10 witness. -/
theorem maintenance_no_callback_frame_witness :
    initState.maintenanceCallback = false ∧
    (decodeHeartbeatResponse initState
        (maintResp "2024-01-02T03:04:05Z")).cachedScheduledMaintenance =
      initState.cachedScheduledMaintenance ∧
    (decodeHeartbeatResponse initState
        (maintResp "2024-01-02T03:04:05Z")).maintenanceFireCount =
      initState.maintenanceFireCount ∧
    (initState.cachedScheduledMaintenance = {} →
      (decodeHeartbeatResponse
          (registerMaintenanceCallback
            (decodeHeartbeatResponse initState (maintResp "2024-01-02T03:04:05Z")))
          (maintResp "2024-01-02T03:04:05Z")).maintenanceFireCount =
        initState.maintenanceFireCount + 1) :=
  ⟨rfl, maintenance_no_callback_frame initState "2024-01-02T03:04:05Z" rfl⟩

/-- C1: with a maintenance callback registered, delivering the same
timestamp `T` in `N` consecutive responses fires the callback exactly once
(including the first delivery when the cache differs or nothing was ever
cached), and a subsequent response carrying a timestamp with a different
second-granularity epoch value fires it exactly once more. -/
theorem maintenance_dedup_law (st : HState) (T Tp : String) (N : Nat)
    (hcb : st.maintenanceCallback = true)
    (h0 : tm2timet_utc st.cachedScheduledMaintenance ≠ tm2timet_utc (parseDate T) ∨
          tm2timet_utc st.cachedScheduledMaintenance = -1)
    (hT : tm2timet_utc (parseDate T) ≠ -1)
    (hne : tm2timet_utc (parseDate T) ≠ tm2timet_utc (parseDate Tp))
    (hN : 0 < N) :
    (runResponses st (List.replicate N (maintResp T))).maintenanceFireCount =
      st.maintenanceFireCount + 1 ∧
    (runResponses st (List.replicate N (maintResp T) ++
        [maintResp Tp])).maintenanceFireCount =
      st.maintenanceFireCount + 2 := by
  obtain ⟨n, rfl⟩ : ∃ n, N = n + 1 := ⟨N - 1, (Nat.succ_pred_eq_of_pos hN).symm⟩
  have hcond1 : tm2timet_utc (parseDate T) - tm2timet_utc st.cachedScheduledMaintenance ≠ 0 ∨
      tm2timet_utc st.cachedScheduledMaintenance = -1 := by
    rcases h0 with hl | hr
    · exact Or.inl (sub_ne_zero_of_ne (Ne.symm hl))
    · exact Or.inr hr
  have hfire := decode_maint_fires st T hcb hcond1
  have hrun : runResponses st (List.replicate (n + 1) (maintResp T)) =
      { st with maintenanceFireCount := st.maintenanceFireCount + 1
                cachedScheduledMaintenance := parseDate T } := by
    rw [List.replicate_succ, runResponses_cons, hfire]
    exact runResponses_maint_stable T hT n _ rfl
  refine ⟨by rw [hrun], ?_⟩
  rw [runResponses_append, hrun]
  have hfire2 := decode_maint_fires
    { st with maintenanceFireCount := st.maintenanceFireCount + 1
              cachedScheduledMaintenance := parseDate T } Tp hcb
    (Or.inl (sub_ne_zero_of_ne (Ne.symm hne)))
  rw [runResponses_cons, show runResponses
      (decodeHeartbeatResponse
        { st with maintenanceFireCount := st.maintenanceFireCount + 1
                  cachedScheduledMaintenance := parseDate T } (maintResp Tp)) [] =
      decodeHeartbeatResponse
        { st with maintenanceFireCount := st.maintenanceFireCount + 1
                  cachedScheduledMaintenance := parseDate T } (maintResp Tp) from rfl]
  rw [hfire2]

/-- C1 witness: two identical deliveries fire once; a different timestamp
afterwards fires once more. -/
theorem maintenance_dedup_law_witness :
    stMaint.maintenanceCallback = true ∧
    (tm2timet_utc stMaint.cachedScheduledMaintenance ≠
        tm2timet_utc (parseDate "2024-01-02T03:04:05Z") ∨
      tm2timet_utc stMaint.cachedScheduledMaintenance = -1) ∧
    tm2timet_utc (parseDate "2024-01-02T03:04:05Z") ≠ -1 ∧
    tm2timet_utc (parseDate "2024-01-02T03:04:05Z") ≠
      tm2timet_utc (parseDate "2024-01-02T03:04:06Z") ∧
    0 < 2 ∧
    (runResponses stMaint
        (List.replicate 2 (maintResp "2024-01-02T03:04:05Z"))).maintenanceFireCount =
      stMaint.maintenanceFireCount + 1 ∧
    (runResponses stMaint (List.replicate 2 (maintResp "2024-01-02T03:04:05Z") ++
        [maintResp "2024-01-02T03:04:06Z"])).maintenanceFireCount =
      stMaint.maintenanceFireCount + 2 := by
  refine ⟨rfl, Or.inr (by decide), by decide, by decide, by decide, ?_⟩
  exact maintenance_dedup_law stMaint "2024-01-02T03:04:05Z" "2024-01-02T03:04:06Z" 2
    rfl (Or.inr (by decide)) (by decide) (by decide) (by decide)

/-- C2: the stored initial-players list is write-once.  While the stored
list is empty, a response whose `sessionConfig` carries an `initialPlayers`
string list stores exactly that list (so the first non-empty carrier
populates it, and an empty carrier leaves it empty); once the stored list
is non-empty, every further response — whatever it carries — leaves it
unchanged. -/
theorem initial_players_write_once (st : HState) (body : ParseResult)
    (rf sc : List (String × Json)) (L : List String)
    (hrf : lookupField rf "sessionConfig" = some (Json.obj sc))
    (hip : lookupField sc "initialPlayers" = some (Json.arr (L.map Json.str))) :
    (st.initialPlayers = [] →
      (decodeHeartbeatResponse st (ParseResult.ok (Json.obj rf))).initialPlayers = L) ∧
    (st.initialPlayers ≠ [] →
      (decodeHeartbeatResponse st body).initialPlayers = st.initialPlayers) := by
  constructor
  · intro hempty
    have hA := processSessionConfig_populates st rf sc L hrf hip hempty
    have hp := processResponse_players st (Json.obj rf)
    rw [hA] at hp
    rcases hR : processResponse st (Json.obj rf) with s | s
    · rw [decode_of_ok st s _ hR]
      rw [hR] at hp
      exact hp
    · rw [decode_of_thrown st s _ hR]
      rw [hR] at hp
      exact hp
  · intro hne
    cases body with
    | fail => rfl
    | ok r =>
        have hp := processResponse_players st r
        rw [processSessionConfig_players_nonempty st r hne] at hp
        rcases hR : processResponse st r with s | s
        · rw [decode_of_ok st s r hR]
          rw [hR] at hp
          exact hp
        · rw [decode_of_thrown st s r hR]
          rw [hR] at hp
          exact hp

/-- C2 witness: a first response stores the carried list; a later response
with a different list leaves it unchanged. -/
theorem initial_players_write_once_witness :
    lookupField [("sessionConfig",
        Json.obj [("initialPlayers", Json.arr [Json.str "p1", Json.str "p2"])])]
      "sessionConfig" =
      some (Json.obj [("initialPlayers", Json.arr [Json.str "p1", Json.str "p2"])]) ∧
    lookupField [("initialPlayers", Json.arr [Json.str "p1", Json.str "p2"])]
      "initialPlayers" = some (Json.arr (["p1", "p2"].map Json.str)) ∧
    (initState.initialPlayers = [] →
      (decodeHeartbeatResponse initState (ParseResult.ok (Json.obj
        [("sessionConfig",
          Json.obj [("initialPlayers",
            Json.arr [Json.str "p1", Json.str "p2"])])]))).initialPlayers =
        ["p1", "p2"]) ∧
    (({ initState with initialPlayers := ["p1", "p2"] } : HState).initialPlayers ≠ [] →
      (decodeHeartbeatResponse { initState with initialPlayers := ["p1", "p2"] }
        (ParseResult.ok (Json.obj [("sessionConfig",
          Json.obj [("initialPlayers",
            Json.arr [Json.str "q3"])])]))).initialPlayers =
        ({ initState with initialPlayers := ["p1", "p2"] } : HState).initialPlayers) := by
  refine ⟨rfl, rfl, ?_, ?_⟩
  · exact (initial_players_write_once initState
      (ParseResult.ok (Json.obj [("sessionConfig",
        Json.obj [("initialPlayers", Json.arr [Json.str "q3"])])]))
      [("sessionConfig",
        Json.obj [("initialPlayers", Json.arr [Json.str "p1", Json.str "p2"])])]
      [("initialPlayers", Json.arr [Json.str "p1", Json.str "p2"])]
      ["p1", "p2"] rfl rfl).1
  · exact (initial_players_write_once
      { initState with initialPlayers := ["p1", "p2"] }
      (ParseResult.ok (Json.obj [("sessionConfig",
        Json.obj [("initialPlayers", Json.arr [Json.str "q3"])])]))
      [("sessionConfig",
        Json.obj [("initialPlayers", Json.arr [Json.str "p1", Json.str "p2"])])]
      [("initialPlayers", Json.arr [Json.str "p1", Json.str "p2"])]
      ["p1", "p2"] rfl rfl).2

/-- C3 counterexample: decoding `c3resp` from `initState` takes the error
path (the outer catch logs three lines after the exception thrown at the
non-string `initialPlayers` element), yet the config settings are not left
as they were before the response — the entry merged before the throw
persists.  So decoding is not all-or-nothing on that error path. -/
theorem decode_error_partial_merge_cex :
    (decodeHeartbeatResponse initState (ParseResult.ok c3resp)).logCount =
      initState.logCount + 3 ∧
    (decodeHeartbeatResponse initState (ParseResult.ok c3resp)).configSettings ≠
      initState.configSettings := by
  constructor
  · decide
  · decide

/-- C3 amended: JSON parse failure leaves everything unchanged, and an
exception raised part-way through processing is caught and logged (three
lines) without further processing; however the merge is not rolled back —
the state is kept exactly as mutated up to the throw point.  On every such
error path the game state, the events, the signal counters, the shutdown
bookkeeping and the connected-player roster are untouched, because every
throw point precedes the operation dispatch. -/
theorem decode_error_keeps_prior_effects (st st2 : HState) (r : Json)
    (h : processResponse st r = DecRes.thrown st2) :
    decodeHeartbeatResponse st (ParseResult.ok r) = logN 3 st2 ∧
    st2.currentGameState = st.currentGameState ∧
    st2.transitionToActiveEvent = st.transitionToActiveEvent ∧
    st2.keepHeartbeatRunning = st.keepHeartbeatRunning ∧
    st2.signalHeartbeatEvent = st.signalHeartbeatEvent ∧
    st2.heartbeatSignalCount = st.heartbeatSignalCount ∧
    st2.shutdownFireCount = st.shutdownFireCount ∧
    st2.shutdownScheduledCount = st.shutdownScheduledCount ∧
    st2.connectedPlayers = st.connectedPlayers ∧
    decodeHeartbeatResponse st ParseResult.fail = logN 3 st := by
  obtain ⟨f1, f2, f3, f4, f5, f6, f7, f8, _⟩ := processResponse_thrown_frame st st2 r h
  exact ⟨decode_of_thrown st st2 r h, f1, f2, f3, f4, f5, f6, f7, f8, rfl⟩

/-- C3 amended witness, at the counterexample input. -/
theorem decode_error_keeps_prior_effects_witness :
    processResponse initState c3resp = DecRes.thrown c3thrownState ∧
    decodeHeartbeatResponse initState (ParseResult.ok c3resp) = logN 3 c3thrownState ∧
    c3thrownState.currentGameState = initState.currentGameState :=
  ⟨by decide, (decode_error_keeps_prior_effects initState c3thrownState c3resp
      (by decide)).1,
    (decode_error_keeps_prior_effects initState c3thrownState c3resp (by decide)).2.1⟩

/-- C4: on a started engine, when the current state is not `Active` and no
active-transition signal is pending, `readyForPlayers` first sets the state
to `StandingBy` and then blocks on the transition-to-active event; if it
unblocks, the event was signaled, it returns `true` exactly when the state
read at unblock time is `Active`, and `false` exactly when the orchestrator
terminated instead (the state is `Terminating`). -/
theorem readyForPlayers_spec (st : HState) (rs : List ParseResult)
    (h1 : st.currentGameState ≠ GameState.Active)
    (h2 : st.transitionToActiveEvent = false) :
    readyForPlayers st rs = readyForPlayersAwait (setState st GameState.StandingBy) rs ∧
    ∀ b st2, readyForPlayers st rs = some (b, st2) →
      st2.transitionToActiveEvent = true ∧
      (b = true ↔ st2.currentGameState = GameState.Active) ∧
      (b = false → st2.currentGameState = GameState.Terminating) := by
  have heq : readyForPlayers st rs =
      readyForPlayersAwait (setState st GameState.StandingBy) rs := by
    unfold readyForPlayers
    rw [if_neg h1]
  refine ⟨heq, ?_⟩
  intro b st2 hsome
  rw [heq] at hsome
  have hev0 : (setState st GameState.StandingBy).transitionToActiveEvent = false := by
    unfold setState
    split
    · exact h2
    · exact h2
  obtain ⟨ha, hb, hc⟩ := readyForPlayersAwait_sound rs _ b st2 hev0 hsome
  refine ⟨ha, hb, ?_⟩
  intro hbf
  rcases hc with h | h
  · have hbt := hb.mpr h
    rw [hbf] at hbt
    cases hbt
  · exact h

/-- C4 witness: from StandingBy, an injected Active-operation response
unblocks the call with result `true`. -/
theorem readyForPlayers_spec_witness :
    stStandingBy.currentGameState ≠ GameState.Active ∧
    stStandingBy.transitionToActiveEvent = false ∧
    ∀ b st2, readyForPlayers stStandingBy [activeResp] = some (b, st2) →
      st2.transitionToActiveEvent = true ∧
      (b = true ↔ st2.currentGameState = GameState.Active) ∧
      (b = false → st2.currentGameState = GameState.Terminating) :=
  ⟨by decide, rfl, (readyForPlayers_spec stStandingBy [activeResp] (by decide) rfl).2⟩

/-- C5: decoding a `Terminate` operation while not already `Terminating`
sets the state to `Terminating`, signals the transition-to-active event
(releasing any blocked `readyForPlayers` caller), schedules the shutdown
callback exactly once on a separate task without invoking it inline;
running that task invokes the registered callback exactly once and then
clears the run flag, after which the heartbeat loop issues no further
ticks. -/
theorem terminate_operation_spec (st : HState)
    (h1 : st.currentGameState ≠ GameState.Terminating)
    (h2 : st.shutdownCallback = true) :
    (decodeHeartbeatResponse st terminateResp).currentGameState =
      GameState.Terminating ∧
    (decodeHeartbeatResponse st terminateResp).transitionToActiveEvent = true ∧
    (decodeHeartbeatResponse st terminateResp).shutdownScheduledCount =
      st.shutdownScheduledCount + 1 ∧
    (decodeHeartbeatResponse st terminateResp).shutdownFireCount =
      st.shutdownFireCount ∧
    (runShutdownCallback (decodeHeartbeatResponse st terminateResp)).shutdownFireCount =
      st.shutdownFireCount + 1 ∧
    (runShutdownCallback
        (decodeHeartbeatResponse st terminateResp)).keepHeartbeatRunning = false ∧
    ∀ exchanges, heartbeatLoop
      (runShutdownCallback (decodeHeartbeatResponse st terminateResp)) exchanges = 0 := by
  have hd : decodeHeartbeatResponse st terminateResp =
      { st with currentGameState := GameState.Terminating
                signalHeartbeatEvent := true
                heartbeatSignalCount := st.heartbeatSignalCount + 1
                transitionToActiveEvent := true
                shutdownScheduledCount := st.shutdownScheduledCount + 1 } := by
    unfold terminateResp decodeHeartbeatResponse processResponse processSessionConfig
      processMaintenance processOperation
    simp only [lookupField, String.reduceEq, reduceIte]
    unfold operationMap
    simp only [String.reduceEq, reduceIte]
    unfold dispatchOperation
    rw [if_pos h1]
    unfold setState
    rw [if_pos h1]
  rw [hd]
  have hrun : runShutdownCallback
      { st with currentGameState := GameState.Terminating
                signalHeartbeatEvent := true
                heartbeatSignalCount := st.heartbeatSignalCount + 1
                transitionToActiveEvent := true
                shutdownScheduledCount := st.shutdownScheduledCount + 1 } =
      { st with currentGameState := GameState.Terminating
                signalHeartbeatEvent := true
                heartbeatSignalCount := st.heartbeatSignalCount + 1
                transitionToActiveEvent := true
                shutdownScheduledCount := st.shutdownScheduledCount + 1
                shutdownFireCount := st.shutdownFireCount + 1
                keepHeartbeatRunning := false } := by
    unfold runShutdownCallback
    rw [if_pos h2]
  rw [hrun]
  refine ⟨rfl, rfl, rfl, rfl, rfl, rfl, ?_⟩
  intro exchanges
  cases exchanges with
  | nil => rfl
  | cons e rest =>
      obtain ⟨code, bodyx⟩ := e
      unfold heartbeatLoop
      rw [if_neg (by simp)]

/-- C5 witness: a Terminate operation decoded in the Active state. -/
theorem terminate_operation_spec_witness :
    stActiveShutdown.currentGameState ≠ GameState.Terminating ∧
    stActiveShutdown.shutdownCallback = true ∧
    (decodeHeartbeatResponse stActiveShutdown terminateResp).currentGameState =
      GameState.Terminating ∧
    (runShutdownCallback
        (decodeHeartbeatResponse stActiveShutdown terminateResp)).shutdownFireCount =
      stActiveShutdown.shutdownFireCount + 1 ∧
    heartbeatLoop (runShutdownCallback
        (decodeHeartbeatResponse stActiveShutdown terminateResp))
      [(200, terminateResp), (200, terminateResp)] = 0 := by
  have h := terminate_operation_spec stActiveShutdown (by decide) rfl
  exact ⟨by decide, rfl, h.1, h.2.2.2.2.1,
    h.2.2.2.2.2.2 [(200, terminateResp), (200, terminateResp)]⟩

/-- C9: the session-config merge loop is idempotent — merging the same
update twice yields the same config snapshot (the same value at every key)
as merging it once — and merges of updates with disjoint key sets commute
(again as snapshots). -/
theorem sessionConfig_merge_idem_comm (cfg : List (String × String))
    (u u1 u2 : List (String × Json)) (key : String)
    (hdisj : keysDisjoint u1 u2 = true) :
    lookupCfg (mergeStringEntries (mergeStringEntries cfg u) u) key =
      lookupCfg (mergeStringEntries cfg u) key ∧
    lookupCfg (mergeStringEntries (mergeStringEntries cfg u1) u2) key =
      lookupCfg (mergeStringEntries (mergeStringEntries cfg u2) u1) key := by
  constructor
  · rcases h : lastStrVal key u with _ | w
    · rw [lookupCfg_merge_of_none key u _ h, lookupCfg_merge_of_none key u _ h]
    · rw [lookupCfg_merge_of_some key u _ w h, lookupCfg_merge_of_some key u _ w h]
  · rcases hv1 : lastStrVal key u1 with _ | w1
    · rcases hv2 : lastStrVal key u2 with _ | w2
      · rw [lookupCfg_merge_of_none key u2 _ hv2, lookupCfg_merge_of_none key u1 _ hv1,
          lookupCfg_merge_of_none key u1 _ hv1, lookupCfg_merge_of_none key u2 _ hv2]
      · rw [lookupCfg_merge_of_some key u2 _ w2 hv2, lookupCfg_merge_of_none key u1 _ hv1,
          lookupCfg_merge_of_some key u2 _ w2 hv2]
    · rcases hv2 : lastStrVal key u2 with _ | w2
      · rw [lookupCfg_merge_of_none key u2 _ hv2, lookupCfg_merge_of_some key u1 _ w1 hv1,
          lookupCfg_merge_of_some key u1 _ w1 hv1]
      · exfalso
        have hk1 := lastStrVal_hasKey key u1 w1 hv1
        have hk2 := lastStrVal_hasKey key u2 w2 hv2
        rw [keysDisjoint_not_both u1 u2 key hdisj hk1] at hk2
        cases hk2

/-- C9 witness: a concrete update merged twice, and two disjoint updates
merged in both orders. -/
theorem sessionConfig_merge_idem_comm_witness :
    keysDisjoint [("a", Json.str "1")] [("b", Json.str "2")] = true ∧
    (lookupCfg (mergeStringEntries
        (mergeStringEntries [("x", "0")] [("a", Json.str "1")]) [("a", Json.str "1")]) "a" =
      lookupCfg (mergeStringEntries [("x", "0")] [("a", Json.str "1")]) "a" ∧
    lookupCfg (mergeStringEntries
        (mergeStringEntries [("x", "0")] [("a", Json.str "1")]) [("b", Json.str "2")]) "a" =
      lookupCfg (mergeStringEntries
        (mergeStringEntries [("x", "0")] [("b", Json.str "2")]) [("a", Json.str "1")]) "a") :=
  ⟨by decide, sessionConfig_merge_idem_comm [("x", "0")] [("a", Json.str "1")]
    [("a", Json.str "1")] [("b", Json.str "2")] "a" (by decide)⟩
